import Mathlib

/-!
Verification development for the pants-node plugin
(src/pants_plugins/sendwave/pants_node/package.py, subsystems.py, target.py).

Content-addressed trees are modelled as lists of digest entries whose paths
are lists of path segments.  The plugin rules (strip_source_roots,
get_node_search_paths, get_node_package_digest and its output routing) are
translated from the source.  The host primitives the rules call (AddPrefix,
RemovePrefix, MergeDigests, source-root resolution, process execution,
environment lookup) are not part of the repository; their definitions here
are modelled from the spec, section 6, external-interface contracts.
-/

namespace PantsNode

/-- Digest entry: a file with its content, or a directory.  Mirrors the
pants FileEntry and Directory entries returned by DigestEntries. -/
inductive DigestEntry where
  | file (path : List String) (content : String)
  | dir (path : List String)
deriving DecidableEq, Repr

/-- Content-addressed tree: identified exactly by its entries. -/
abbrev Digest := List DigestEntry

/-- Path of a digest entry. -/
def DigestEntry.path : DigestEntry → List String
  | .file p _ => p
  | .dir p => p

/-- Rewrite the path of an entry, keeping file content intact. -/
def DigestEntry.withPath : DigestEntry → List String → DigestEntry
  | .file _ c, q => .file q c
  | .dir _, q => .dir q

/-- Modelled from the spec: host primitive AddPrefix on one entry. -/
def addPfxEntry (p : List String) (e : DigestEntry) : DigestEntry :=
  e.withPath (p ++ e.path)

/-- Modelled from the spec: host primitive AddPrefix; prepends a path to
every entry of a digest and never fails. -/
def addPfx (d : Digest) (p : List String) : Digest :=
  d.map (addPfxEntry p)

/-- Modelled from the spec: host primitive RemovePrefix on one entry; none
when the entry path does not start with the removed path. -/
def removePfxEntry (p : List String) (e : DigestEntry) : Option DigestEntry :=
  if p <+: e.path then some (e.withPath (e.path.drop p.length)) else none

/-- Sequence a list of optional values; none as soon as one is none.
Used to model host operations applied element by element. -/
def seqOpt : List (Option α) → Option (List α)
  | [] => some []
  | none :: _ => none
  | some a :: rest => (seqOpt rest).map (a :: ·)

/-- Apply a fallible operation to every element, collecting all results. -/
def traverseOpt (f : α → Option β) (l : List α) : Option (List β) :=
  seqOpt (l.map f)

/-- Modelled from the spec: host primitive RemovePrefix; fails
(PrefixMismatch, modelled as none) when some path lacks the removed path. -/
def removePfx (d : Digest) (p : List String) : Option Digest :=
  traverseOpt (removePfxEntry p) d

/-- Modelled from the spec: host primitive MergeDigests; the union of the
given digests (entry paths are disjoint in every use below). -/
def mergeDigests (ds : List Digest) : Digest :=
  ds.flatten

/-- Errors raised by the plugin rules or by the host primitives they call:
PrefixMismatch from RemovePrefix, NoSourceRootError from source-root
resolution, the Python UnboundLocalError in get_node_search_paths, the
ValueError when npm is not found, and a non-zero subprocess exit. -/
inductive NodeError where
  | prefixMismatch
  | missingSourceRoot
  | unboundLocal
  | npmNotFound (searched : List String)
  | processFailed (description : String) (exitCode : Nat) (stderr : String)
deriving DecidableEq, Repr

/-- strip_source_roots (package.py lines 43 to 83): collect the entries of
the digest, resolve the source root of every file and directory path
(rootMap models the host SourceRootsResult; none means the host raises
NoSourceRootError for that path), group the entries by their root in first
occurrence order (the Python dict over roots.items), remove each group
root from its group, and merge the stripped groups back together. -/
def strip_source_roots (entries : List DigestEntry)
    (rootMap : List String → Option (List String)) :
    Except NodeError (List DigestEntry) :=
  match seqOpt ((entries.map fun e => rootMap e.path).dedup) with
  | none => .error .missingSourceRoot
  | some roots =>
    match traverseOpt
        (fun r => traverseOpt (removePfxEntry r)
          (entries.filter fun e => rootMap e.path == some r)) roots with
    | none => .error .prefixMismatch
    | some stripped_digests => .ok (mergeDigests stripped_digests)

/-- Path rewrite removing from an entry exactly the root that the root map
assigns to it (an entry without a root is untouched); used to state what
strip_source_roots computes. -/
def stripOwnRoot (rootMap : List String → Option (List String))
    (e : DigestEntry) : DigestEntry :=
  match rootMap e.path with
  | some r => e.withPath (e.path.drop r.length)
  | none => e

/-- Default of the node subsystem option search_paths
(subsystems.py lines 31 to 37). -/
def default_search_paths : List String := ["/bin", "/usr/bin/"]

/-- Default of the node subsystem option use_nvm
(subsystems.py lines 38 to 44). -/
def default_use_nvm : Bool := true

/-- Search directory computation of get_node_search_paths (package.py lines
111 to 117).  nvm_bin is some v when NVM_BIN is present in the environment
with value v (possibly empty); it is none when NVM_BIN is absent, in which
case the Environment dict is empty and falsy.  With use_nvm true and
NVM_BIN absent the Python local variable search_paths is never assigned and
the rule raises UnboundLocalError, modelled as none. -/
def search_dirs (use_nvm : Bool) (nvm_bin : Option String)
    (configured : List String) : Option (List String) :=
  if use_nvm then
    match nvm_bin with
    | some v => some (v :: configured)
    | none => none
  else
    some configured

/-- BinaryPathRequest plus the not-found check of get_node_search_paths
(package.py lines 119 to 130): the first searched directory containing an
npm executable wins and yields the binary path inside that directory; the
ValueError carries the searched directory list.  hasNpm tells which
directories contain an npm executable. -/
def locate_npm (search_paths : List String) (hasNpm : String → Bool) :
    Except NodeError (String × List String) :=
  match search_paths.find? hasNpm with
  | some d => .ok (d ++ "/npm", search_paths)
  | none => .error (.npmNotFound search_paths)

/-- get_node_search_paths (package.py lines 106 to 130). -/
def get_node_search_paths (use_nvm : Bool) (nvm_bin : Option String)
    (configured : List String) (hasNpm : String → Bool) :
    Except NodeError (String × List String) :=
  match search_dirs use_nvm nvm_bin configured with
  | none => .error .unboundLocal
  | some sp => locate_npm sp hasNpm

/-- Result of one subprocess execution as reported by the host. -/
structure ProcessResult where
  exitCode : Nat
  stdout : String
  stderr : String
  output_digest : Digest
deriving DecidableEq, Repr

/-- Modelled from the spec: the host Get of a ProcessResult succeeds only
on exit code zero and otherwise fails the whole pipeline with the exit
code and stderr of the subprocess. -/
def runProcess (description : String) (r : ProcessResult) :
    Except NodeError Digest :=
  if r.exitCode = 0 then .ok r.output_digest
  else .error (.processFailed description r.exitCode r.stderr)

/-- Observable pipeline events, in order: a subprocess execution, or a
logger.info line. -/
inductive Event where
  | processRun (description : String)
  | logInfo (line : String)
deriving DecidableEq, Repr

/-- log_console_output (package.py lines 154 to 159): logs the decoded
console output with double escaped newlines replaced. -/
def log_console_output (output : String) : Event :=
  .logInfo (output.replace "\\n" "\n")

/-- Output routing step of get_node_package_digest (package.py lines 235
to 241): with a configured output path the built tree is rooted there;
otherwise the package root is added back and the per-file source roots are
stripped. -/
def route_output (build_output : Digest) (output_path : Option (List String))
    (package_root : List String)
    (rootMap : List String → Option (List String)) :
    Except NodeError Digest :=
  match output_path with
  | some p => .ok (addPfx build_output p)
  | none => strip_source_roots (addPfx build_output package_root) rootMap

/-- get_node_package_digest (package.py lines 162 to 241).  Returns the
pipeline result together with the ordered list of observable events.
source_files is the digest of all transitively collected sources
(get_node_package_file_sources, lines 140 to 151); run_install and
run_build give, for each input digest, the outcome the host reports for
the corresponding subprocess, whose output digest the host already
restricts to node_modules and to artifact_paths respectively. -/
def get_node_package_digest
    (package_root : List String)
    (source_files : Digest)
    (use_nvm : Bool) (nvm_bin : Option String) (configured : List String)
    (hasNpm : String → Bool)
    (run_install run_build : Digest → ProcessResult)
    (output_path : Option (List String))
    (rootMap : List String → Option (List String)) :
    Except NodeError Digest × List Event :=
  match removePfx source_files package_root with
  | none => (.error .prefixMismatch, [])
  | some stripped_files =>
    match get_node_search_paths use_nvm nvm_bin configured hasNpm with
    | .error e => (.error e, [])
    | .ok (npm_path, search_paths) =>
      let logUsing := Event.logInfo ("Using npm at " ++ npm_path ++
        " ($PATH=" ++ String.intercalate ":" search_paths ++ ")")
      let installDesc := "installing node project dependencies"
      let installRes := run_install stripped_files
      match runProcess installDesc installRes with
      | .error e => (.error e, [logUsing, .processRun installDesc])
      | .ok install_out =>
        let build_context := mergeDigests [stripped_files, install_out]
        let buildDesc := "Running npm run-script pants:build"
        let buildRes := run_build build_context
        match runProcess buildDesc buildRes with
        | .error e => (.error e,
            [logUsing, .processRun installDesc,
             log_console_output installRes.stdout, .processRun buildDesc])
        | .ok build_out =>
          (route_output build_out output_path package_root rootMap,
           [logUsing, .processRun installDesc,
            log_console_output installRes.stdout,
            .processRun buildDesc, log_console_output buildRes.stdout])

/-- Root map of the counterexample for the per-file stripping claim: the
first file is rooted at a, the second at b. -/
def exRootMap : List String → Option (List String)
  | ["a", "a", "f.js"] => some ["a"]
  | ["b", "g.js"] => some ["b"]
  | _ => none

/-- Root map of the two-root scenario: files under r1 and r2. -/
def twoRootMap : List String → Option (List String)
  | ["r1", "x.js"] => some ["r1"]
  | ["r2", "y.js"] => some ["r2"]
  | _ => none

/-- Root map assigning no root to any path: the host source-root resolver
raises NoSourceRootError for every path. -/
def noRootMap : List String → Option (List String) := fun _ => none

/-- Root map of the end-to-end scenario: the rooted build output under
services/app has source root services/app. -/
def e2eRootMap : List String → Option (List String)
  | ["services", "app", "dist", "bundle.js"] => some ["services", "app"]
  | _ => none

/-! Helper lemmas about the model. -/

@[simp]
lemma DigestEntry.path_withPath (e : DigestEntry) (q : List String) :
    (e.withPath q).path = q := by
  cases e <;> rfl

@[simp]
lemma DigestEntry.withPath_path (e : DigestEntry) : e.withPath e.path = e := by
  cases e <;> rfl

lemma DigestEntry.withPath_withPath (e : DigestEntry) (q q2 : List String) :
    (e.withPath q).withPath q2 = e.withPath q2 := by
  cases e <;> rfl

lemma seqOpt_map_some (l : List α) : seqOpt (l.map some) = some l := by
  induction l with
  | nil => rfl
  | cons a rest ih => simp [seqOpt, ih]

lemma seqOpt_eq_none {l : List (Option α)} (h : none ∈ l) : seqOpt l = none := by
  induction l with
  | nil => cases h
  | cons x rest ih =>
    cases x with
    | none => rfl
    | some a =>
      have hr : none ∈ rest := by simpa using h
      simp [seqOpt, ih hr]

lemma exists_map_some {α : Type} {l : List (Option α)}
    (h : ∀ x ∈ l, ∃ y, x = some y) :
    ∃ vs : List α, l = vs.map some := by
  induction l with
  | nil => exact ⟨[], rfl⟩
  | cons x rest ih =>
    obtain ⟨y, hy⟩ := h x (List.mem_cons_self x rest)
    obtain ⟨vs, hvs⟩ := ih fun z hz => h z (List.mem_cons_of_mem _ hz)
    exact ⟨y :: vs, by simp [hy, hvs]⟩

lemma traverseOpt_eq_some {f : α → Option β} {g : α → β} {l : List α}
    (h : ∀ a ∈ l, f a = some (g a)) :
    traverseOpt f l = some (l.map g) := by
  induction l with
  | nil => rfl
  | cons a rest ih =>
    have h1 := h a (List.mem_cons_self a rest)
    have h2 := ih fun z hz => h z (List.mem_cons_of_mem _ hz)
    simp only [traverseOpt, List.map_cons] at h2 ⊢
    simp [seqOpt, h1, h2]

lemma traverseOpt_eq_none {f : α → Option β} {l : List α} {a : α}
    (ha : a ∈ l) (hfa : f a = none) : traverseOpt f l = none := by
  unfold traverseOpt
  exact seqOpt_eq_none (hfa ▸ List.mem_map_of_mem f ha)

lemma removePfxEntry_of_pfx {p : List String} {e : DigestEntry}
    (h : p <+: e.path) :
    removePfxEntry p e = some (e.withPath (e.path.drop p.length)) := by
  simp [removePfxEntry, h]

lemma removePfx_eq_some {d : Digest} {p : List String}
    (h : ∀ e ∈ d, p <+: e.path) :
    removePfx d p = some (d.map fun e => e.withPath (e.path.drop p.length)) :=
  traverseOpt_eq_some fun e he => removePfxEntry_of_pfx (h e he)

lemma removePfx_eq_none {d : Digest} {p : List String} {e : DigestEntry}
    (he : e ∈ d) (h : ¬ p <+: e.path) :
    removePfx d p = none :=
  traverseOpt_eq_none he (by simp [removePfxEntry, h])

lemma flatten_map_filter_perm {α β : Type} [BEq β] [LawfulBEq β] (vs : List β)
    (f : α → β) :
    ∀ l : List α, vs.Nodup → (∀ x ∈ l, f x ∈ vs) →
      (vs.map fun v => l.filter fun x => f x == v).flatten.Perm l := by
  induction vs with
  | nil =>
    intro l _ hcov
    have hl : l = [] :=
      List.eq_nil_iff_forall_not_mem.mpr fun x hx =>
        (List.not_mem_nil (f x)) (hcov x hx)
    simp [hl]
  | cons v vs ih =>
    intro l hnd hcov
    rw [List.nodup_cons] at hnd
    have hrest : ∀ u ∈ vs, (l.filter fun x => f x == u)
        = (l.filter fun x => !(f x == v)).filter fun x => f x == u := by
      intro u hu
      rw [List.filter_filter]
      apply List.filter_congr
      intro x _
      by_cases hxu : f x = u
      · have huv : u ≠ v := fun hq => hnd.1 (hq ▸ hu)
        have h1 : (f x == u) = true := by simp [hxu]
        have h2 : (f x == v) = false := by
          simp only [beq_eq_false_iff_ne, ne_eq, hxu]
          exact huv
        simp [h1, h2]
      · have h1 : (f x == u) = false := by simp [hxu]
        simp [h1]
    have hmapeq : (vs.map fun u => l.filter fun x => f x == u)
        = vs.map fun u =>
            (l.filter fun x => !(f x == v)).filter fun x => f x == u :=
      List.map_congr_left hrest
    have hcov2 : ∀ x ∈ l.filter fun x => !(f x == v), f x ∈ vs := by
      intro x hx
      have hmem := List.mem_of_mem_filter hx
      have hne : (f x == v) = false := by
        have := List.of_mem_filter hx
        simpa using this
      have hfv : f x ≠ v := by simpa using hne
      have := hcov x hmem
      rcases List.mem_cons.mp this with h | h
      · exact absurd h hfv
      · exact h
    have hih := ih (l.filter fun x => !(f x == v)) hnd.2 hcov2
    have hstep : ((v :: vs).map fun u => l.filter fun x => f x == u).flatten
        = (l.filter fun x => f x == v)
          ++ (vs.map fun u =>
              (l.filter fun x => !(f x == v)).filter fun x => f x == u).flatten := by
      simp [hmapeq]
    rw [hstep]
    exact (List.Perm.append_left _ hih).trans (List.filter_append_perm _ l)

lemma strip_source_roots_ok {entries : List DigestEntry}
    {rootMap : List String → Option (List String)}
    (h : ∀ e ∈ entries, ∃ r, rootMap e.path = some r ∧ r <+: e.path) :
    ∃ out, strip_source_roots entries rootMap = .ok out ∧
      out.Perm (entries.map (stripOwnRoot rootMap)) := by
  have hall : ∀ x ∈ (entries.map fun e => rootMap e.path).dedup,
      ∃ y, x = some y := by
    intro x hx
    rw [List.mem_dedup] at hx
    obtain ⟨e, he, rfl⟩ := List.mem_map.mp hx
    obtain ⟨r, hr, _⟩ := h e he
    exact ⟨r, hr⟩
  obtain ⟨vs, hvs⟩ := exists_map_some hall
  have hseq : seqOpt ((entries.map fun e => rootMap e.path).dedup)
      = some vs := by
    rw [hvs]; exact seqOpt_map_some vs
  have hgroup : ∀ r ∈ vs,
      traverseOpt (removePfxEntry r)
          (entries.filter fun e => rootMap e.path == some r)
        = some ((entries.filter fun e => rootMap e.path == some r).map
            fun e => e.withPath (e.path.drop r.length)) := by
    intro r _
    apply traverseOpt_eq_some
    intro e he
    have hmem := List.mem_of_mem_filter he
    have hfe : rootMap e.path = some r := by
      have := List.of_mem_filter he
      simpa using this
    obtain ⟨r2, hr2, hpfx⟩ := h e hmem
    rw [hfe] at hr2
    cases Option.some.inj hr2
    exact removePfxEntry_of_pfx hpfx
  have hmain : traverseOpt
      (fun r => traverseOpt (removePfxEntry r)
        (entries.filter fun e => rootMap e.path == some r)) vs
      = some (vs.map fun r =>
          (entries.filter fun e => rootMap e.path == some r).map
            fun e => e.withPath (e.path.drop r.length)) :=
    traverseOpt_eq_some hgroup
  have hstrip : strip_source_roots entries rootMap
      = .ok (mergeDigests (vs.map fun r =>
          (entries.filter fun e => rootMap e.path == some r).map
            fun e => e.withPath (e.path.drop r.length))) := by
    simp only [strip_source_roots, hseq, hmain]
  refine ⟨_, hstrip, ?_⟩
  have hgmap : ∀ r ∈ vs,
      ((entries.filter fun e => rootMap e.path == some r).map
          fun e => e.withPath (e.path.drop r.length))
        = (entries.filter fun e => rootMap e.path == some r).map
            (stripOwnRoot rootMap) := by
    intro r _
    apply List.map_congr_left
    intro e he
    have hfe : rootMap e.path = some r := by
      have := List.of_mem_filter he
      simpa using this
    simp [stripOwnRoot, hfe]
  have hnd : ((entries.map fun e => rootMap e.path).dedup).Nodup :=
    List.nodup_dedup _
  have hcov : ∀ e ∈ entries,
      rootMap e.path ∈ (entries.map fun e => rootMap e.path).dedup := by
    intro e he
    rw [List.mem_dedup]
    exact List.mem_map_of_mem _ he
  have hperm0 : (((entries.map fun e => rootMap e.path).dedup).map fun v =>
      entries.filter fun e => rootMap e.path == v).flatten.Perm entries :=
    flatten_map_filter_perm _ (fun e => rootMap e.path) entries hnd hcov
  have hperm1 : ((vs.map some).map fun v =>
      entries.filter fun e => rootMap e.path == v).flatten.Perm entries := by
    rw [← hvs]; exact hperm0
  rw [List.map_map] at hperm1
  have heq1 : mergeDigests (vs.map fun r =>
      (entries.filter fun e => rootMap e.path == some r).map
        fun e => e.withPath (e.path.drop r.length))
      = ((vs.map fun r =>
          entries.filter fun e => rootMap e.path == some r).flatten).map
            (stripOwnRoot rootMap) := by
    unfold mergeDigests
    rw [List.map_congr_left hgmap, List.map_flatten, List.map_map]
    rfl
  rw [heq1]
  exact List.Perm.map _ hperm1

/-! Claim theorems. -/

/-- C2: the claim says that with use_nvm false, or NVM_BIN absent or
empty, the searched list is exactly the configured search_paths.  The code
disagrees: with use_nvm true (the default) and NVM_BIN absent the Python
local variable search_paths is never assigned, so get_node_search_paths
raises UnboundLocalError instead of searching the configured directories.
This theorem evaluates the model at that failing input. -/
theorem spec_c2_nvm_unbound_crash :
    get_node_search_paths default_use_nvm none default_search_paths
        (fun _ => true)
      = .error .unboundLocal := rfl

/-- C5: for every tree and path such that every entry path in the tree
starts with that path, removing the path and adding it back restores the
tree exactly, so the round trip preserves the path set and every per-path
file content. -/
theorem spec_c5_strip_add_round_trip (d : Digest) (p : List String)
    (h : ∀ e ∈ d, p <+: e.path) :
    ∃ d2, removePfx d p = some d2 ∧ addPfx d2 p = d := by
  refine ⟨d.map fun e => e.withPath (e.path.drop p.length),
    removePfx_eq_some h, ?_⟩
  unfold addPfx
  rw [List.map_map]
  have hid : ∀ e ∈ d,
      (addPfxEntry p ∘ fun e => e.withPath (e.path.drop p.length)) e = e := by
    intro e he
    obtain ⟨t, ht⟩ := h e he
    have hpe : p ++ e.path.drop p.length = e.path := by
      rw [← ht, List.drop_left]
    simp [Function.comp, addPfxEntry, DigestEntry.withPath_withPath, hpe]
  rw [List.map_congr_left hid]
  simp

/-- Witness for spec_c5_strip_add_round_trip at the source tree of the
end-to-end scenario with package root services/app. -/
theorem spec_c5_strip_add_round_trip_witness :
    ∃ d2, removePfx
        [DigestEntry.file ["services", "app", "package.json"] "pkg",
         DigestEntry.file ["services", "app", "src", "index.js"] "idx"]
        ["services", "app"] = some d2
      ∧ addPfx d2 ["services", "app"]
        = [DigestEntry.file ["services", "app", "package.json"] "pkg",
           DigestEntry.file ["services", "app", "src", "index.js"] "idx"] :=
  spec_c5_strip_add_round_trip _ _ (by decide)

/-- C6: locate_npm returns the npm path inside the first searched
directory that contains an npm executable, and it returns the error
carrying the searched directory list exactly when no searched directory
contains one. -/
theorem spec_c6_locate_first_match (sp : List String)
    (hasNpm : String → Bool) :
    (locate_npm sp hasNpm = .error (.npmNotFound sp)
      ↔ ∀ d ∈ sp, hasNpm d = false)
    ∧ ∀ l1 d l2, sp = l1 ++ d :: l2 → hasNpm d = true →
        (∀ x ∈ l1, hasNpm x = false) →
        locate_npm sp hasNpm = .ok (d ++ "/npm", sp) := by
  constructor
  · unfold locate_npm
    cases hf : sp.find? hasNpm with
    | none =>
      simp only [hf]
      constructor
      · intro _ d hd
        have := List.find?_eq_none.mp hf d hd
        simpa using this
      · intro _; trivial
    | some d =>
      simp only [hf]
      constructor
      · intro hcon
        exact absurd hcon (by simp)
      · intro hall
        exfalso
        have hmem := List.mem_of_find?_eq_some hf
        have hp := List.find?_some hf
        simp [hall d hmem] at hp
  · intro l1 d l2 hsp hd hl1
    subst hsp
    unfold locate_npm
    have hfind : (l1 ++ d :: l2).find? hasNpm = some d := by
      induction l1 with
      | nil => simpa using List.find?_cons_of_pos l2 hd
      | cons a as ih =>
        have ha : hasNpm a = false := hl1 a (List.mem_cons_self a as)
        rw [List.cons_append, List.find?_cons_of_neg _ (by simp [ha])]
        exact ih fun x hx => hl1 x (List.mem_cons_of_mem _ hx)
    rw [hfind]

/-- Witness for spec_c6_locate_first_match: npm only in the second
directory is found there; npm in both directories resolves to the first. -/
theorem spec_c6_locate_first_match_witness :
    locate_npm ["/a", "/b"] (fun d => d == "/b")
      = .ok ("/b" ++ "/npm", ["/a", "/b"])
    ∧ locate_npm ["/a", "/b"] (fun _ => true)
      = .ok ("/a" ++ "/npm", ["/a", "/b"]) := by
  constructor
  · exact (spec_c6_locate_first_match ["/a", "/b"] (fun d => d == "/b")).2
      ["/a"] "/b" [] rfl (by decide) (by decide)
  · exact (spec_c6_locate_first_match ["/a", "/b"] (fun _ => true)).2
      [] "/a" ["/b"] rfl rfl (by simp)

/-- C3 counterexample: two files rooted at the distinct roots a and b.
The file a/a/f.js has root a; after its own root is stripped once the
result a/f.js still has a as a path prefix, refuting the claim that every
file originally under a root no longer has that root as a prefix. -/
theorem spec_c3_counterexample :
    strip_source_roots
        [DigestEntry.file ["a", "a", "f.js"] "c1",
         DigestEntry.file ["b", "g.js"] "c2"] exRootMap
      = .ok [DigestEntry.file ["a", "f.js"] "c1",
             DigestEntry.file ["g.js"] "c2"]
    ∧ ["a"] <+: ["a", "f.js"] := ⟨rfl, by decide⟩

/-- C3 (amended): for a tree whose files the root map assigns the two
distinct roots R1 and R2, each a prefix of its files paths, the operation
partitions the entries by root, strips exactly each entry own root, and
merges the groups back into one tree (the output is a permutation of the
input with each entry own root removed, so no file has another root
stripped); provided no file path repeats its root immediately after it,
files under R1 no longer have R1 as a prefix and files under R2 no longer
have R2 as a prefix. -/
theorem spec_c3_per_file_root_strip (entries : List DigestEntry)
    (rootMap : List String → Option (List String)) (R1 R2 : List String)
    (_hR : ∀ e ∈ entries, rootMap e.path = some R1 ∨ rootMap e.path = some R2)
    (hpfx : ∀ e ∈ entries, ∃ r, rootMap e.path = some r ∧ r <+: e.path)
    (hnest : ∀ e ∈ entries, ∀ r, rootMap e.path = some r →
        ¬ r <+: e.path.drop r.length) :
    ∃ out, strip_source_roots entries rootMap = .ok out
      ∧ out.Perm (entries.map (stripOwnRoot rootMap))
      ∧ (∀ e ∈ entries, rootMap e.path = some R1 →
          ¬ R1 <+: (stripOwnRoot rootMap e).path)
      ∧ ∀ e ∈ entries, rootMap e.path = some R2 →
          ¬ R2 <+: (stripOwnRoot rootMap e).path := by
  obtain ⟨out, hout, hperm⟩ := strip_source_roots_ok hpfx
  refine ⟨out, hout, hperm, ?_, ?_⟩
  · intro e he hr
    have := hnest e he R1 hr
    simpa [stripOwnRoot, hr] using this
  · intro e he hr
    have := hnest e he R2 hr
    simpa [stripOwnRoot, hr] using this

/-- Witness for spec_c3_per_file_root_strip: two files under the distinct
roots r1 and r2 are both stripped of exactly their own root. -/
theorem spec_c3_per_file_root_strip_witness :
    ∃ out, strip_source_roots
        [DigestEntry.file ["r1", "x.js"] "a",
         DigestEntry.file ["r2", "y.js"] "b"] twoRootMap = .ok out
      ∧ out.Perm ([DigestEntry.file ["r1", "x.js"] "a",
          DigestEntry.file ["r2", "y.js"] "b"].map (stripOwnRoot twoRootMap))
      ∧ (∀ e ∈ [DigestEntry.file ["r1", "x.js"] "a",
            DigestEntry.file ["r2", "y.js"] "b"],
          twoRootMap e.path = some ["r1"] →
          ¬ ["r1"] <+: (stripOwnRoot twoRootMap e).path)
      ∧ ∀ e ∈ [DigestEntry.file ["r1", "x.js"] "a",
            DigestEntry.file ["r2", "y.js"] "b"],
          twoRootMap e.path = some ["r2"] →
          ¬ ["r2"] <+: (stripOwnRoot twoRootMap e).path := by
  refine spec_c3_per_file_root_strip _ twoRootMap ["r1"] ["r2"] ?_ ?_ ?_
  · intro e he
    rcases List.mem_cons.mp he with rfl | he2
    · left; rfl
    · rcases List.mem_singleton.mp he2 with rfl
      right; rfl
  · intro e he
    rcases List.mem_cons.mp he with rfl | he2
    · exact ⟨["r1"], rfl, by decide⟩
    · rcases List.mem_singleton.mp he2 with rfl
      exact ⟨["r2"], rfl, by decide⟩
  · intro e he r hr
    rcases List.mem_cons.mp he with rfl | he2
    · simp only [twoRootMap, DigestEntry.path] at hr
      rcases Option.some.inj hr with rfl
      decide
    · rcases List.mem_singleton.mp he2 with rfl
      simp only [twoRootMap, DigestEntry.path] at hr
      rcases Option.some.inj hr with rfl
      decide

/-- C4 counterexample: a digest whose single file is assigned no source
root by the root map makes strip_source_roots fail with the
missing-source-root error; the operation does not succeed and the file is
not passed through unchanged. -/
theorem spec_c4_counterexample :
    strip_source_roots [DigestEntry.file ["x.js"] "c"] noRootMap
      = .error .missingSourceRoot := rfl

/-- C4 (amended): each file has at most one source root stripped from its
path — with a total root map whose roots start their paths, the output is
exactly the input entries each with its own root removed once — but a file
to which the root map assigns no root makes the operation fail with the
missing-source-root error (the host raises NoSourceRootError) instead of
leaving that file unchanged in the output. -/
theorem spec_c4_root_handling (entries : List DigestEntry)
    (rootMap : List String → Option (List String)) :
    ((∀ e ∈ entries, ∃ r, rootMap e.path = some r ∧ r <+: e.path) →
      ∃ out, strip_source_roots entries rootMap = .ok out ∧
        out.Perm (entries.map (stripOwnRoot rootMap)))
    ∧ ∀ e ∈ entries, rootMap e.path = none →
        strip_source_roots entries rootMap = .error .missingSourceRoot := by
  constructor
  · exact strip_source_roots_ok
  · intro e he hn
    have hmem : (none : Option (List String))
        ∈ (entries.map fun e => rootMap e.path).dedup := by
      rw [List.mem_dedup]
      exact hn ▸ List.mem_map_of_mem _ he
    simp only [strip_source_roots, seqOpt_eq_none hmem]

/-- Witness for spec_c4_root_handling: a rooted file is stripped of its
single root, and a rootless file makes the operation fail. -/
theorem spec_c4_root_handling_witness :
    (∃ out, strip_source_roots [DigestEntry.file ["r1", "x.js"] "a"]
          twoRootMap = .ok out
        ∧ out.Perm ([DigestEntry.file ["r1", "x.js"] "a"].map
            (stripOwnRoot twoRootMap)))
    ∧ strip_source_roots [DigestEntry.file ["y.js"] "c"] noRootMap
      = .error .missingSourceRoot := by
  constructor
  · refine (spec_c4_root_handling _ twoRootMap).1 ?_
    intro e he
    rcases List.mem_singleton.mp he with rfl
    exact ⟨["r1"], rfl, by decide⟩
  · exact (spec_c4_root_handling _ noRootMap).2
      (DigestEntry.file ["y.js"] "c") (List.mem_singleton.mpr rfl) rfl

/-- C1: the output routing of get_node_package_digest is dual.  With an
explicit output path the result is the built tree with that path prepended
to every entry (so its path list is the built path list with the output
path in front); without one, the built tree gets the package root
prepended and then the per-file source roots stripped.  At the end-to-end
scenario with package root services/app the routed tree holds exactly
dist/bundle.js, not services/app/dist/bundle.js, while the explicit path
bundles/app yields bundles/app/dist/bundle.js. -/
theorem spec_c1_output_routing (B : Digest) (p package_root : List String)
    (rm : List String → Option (List String))
    (hroot : ∀ e ∈ addPfx B package_root,
      ∃ r, rm e.path = some r ∧ r <+: e.path) :
    (route_output B (some p) package_root rm = .ok (addPfx B p)
      ∧ (addPfx B p).map DigestEntry.path = B.map fun e => p ++ e.path)
    ∧ (∃ out, route_output B none package_root rm = .ok out
        ∧ out.Perm ((addPfx B package_root).map (stripOwnRoot rm)))
    ∧ route_output [DigestEntry.file ["dist", "bundle.js"] "c"]
        (some ["bundles", "app"]) ["services", "app"] rm
        = .ok [DigestEntry.file ["bundles", "app", "dist", "bundle.js"] "c"]
    ∧ route_output [DigestEntry.file ["dist", "bundle.js"] "c"] none
        ["services", "app"] e2eRootMap
        = .ok [DigestEntry.file ["dist", "bundle.js"] "c"] := by
  refine ⟨⟨rfl, ?_⟩, ?_, rfl, rfl⟩
  · simp [addPfx, addPfxEntry]
  · exact strip_source_roots_ok hroot

/-- Witness for spec_c1_output_routing at the end-to-end scenario tree. -/
theorem spec_c1_output_routing_witness :
    route_output [DigestEntry.file ["dist", "bundle.js"] "c"]
        (some ["bundles", "app"]) ["services", "app"] e2eRootMap
      = .ok [DigestEntry.file ["bundles", "app", "dist", "bundle.js"] "c"]
    ∧ route_output [DigestEntry.file ["dist", "bundle.js"] "c"] none
        ["services", "app"] e2eRootMap
      = .ok [DigestEntry.file ["dist", "bundle.js"] "c"] := by
  have hroot : ∀ e ∈ addPfx [DigestEntry.file ["dist", "bundle.js"] "c"]
      ["services", "app"], ∃ r, e2eRootMap e.path = some r ∧ r <+: e.path := by
    intro e he
    have he2 : e = DigestEntry.file
        ["services", "app", "dist", "bundle.js"] "c" := by
      simpa [addPfx, addPfxEntry, DigestEntry.withPath] using he
    subst he2
    exact ⟨["services", "app"], rfl, by decide⟩
  have h := spec_c1_output_routing
    [DigestEntry.file ["dist", "bundle.js"] "c"]
    ["bundles", "app"] ["services", "app"] e2eRootMap hroot
  exact ⟨h.2.2.1, h.2.2.2⟩

/-- C7: when the npm install subprocess exits non-zero the pipeline stops
with the process failure carrying that exit code and stderr, yields no
artifact digest, never runs the build subprocess, and runs the install
subprocess exactly once (the whole event trace is the npm-path log line
followed by the single install run). -/
theorem spec_c7_install_failure
    (package_root : List String) (source_files : Digest)
    (use_nvm : Bool) (nvm_bin : Option String) (configured : List String)
    (hasNpm : String → Bool) (run_install run_build : Digest → ProcessResult)
    (output_path : Option (List String))
    (rootMap : List String → Option (List String))
    (sf : Digest) (np : String) (sp : List String)
    (h1 : removePfx source_files package_root = some sf)
    (h2 : get_node_search_paths use_nvm nvm_bin configured hasNpm
      = .ok (np, sp))
    (h3 : (run_install sf).exitCode ≠ 0) :
    get_node_package_digest package_root source_files use_nvm nvm_bin
        configured hasNpm run_install run_build output_path rootMap
      = (.error (.processFailed "installing node project dependencies"
            (run_install sf).exitCode (run_install sf).stderr),
         [Event.logInfo ("Using npm at " ++ np ++ " ($PATH="
            ++ String.intercalate ":" sp ++ ")"),
          Event.processRun "installing node project dependencies"])
    ∧ (get_node_package_digest package_root source_files use_nvm nvm_bin
        configured hasNpm run_install run_build output_path rootMap).snd.count
          (Event.processRun "installing node project dependencies") = 1
    ∧ (get_node_package_digest package_root source_files use_nvm nvm_bin
        configured hasNpm run_install run_build output_path rootMap).snd.count
          (Event.processRun "Running npm run-script pants:build") = 0 := by
  have hmain : get_node_package_digest package_root source_files use_nvm
      nvm_bin configured hasNpm run_install run_build output_path rootMap
      = (.error (.processFailed "installing node project dependencies"
            (run_install sf).exitCode (run_install sf).stderr),
         [Event.logInfo ("Using npm at " ++ np ++ " ($PATH="
            ++ String.intercalate ":" sp ++ ")"),
          Event.processRun "installing node project dependencies"]) := by
    simp only [get_node_package_digest, h1, h2, runProcess, h3, if_false]
  refine ⟨hmain, ?_, ?_⟩
  · rw [hmain]
    simp [List.count_cons]
  · rw [hmain]
    simp [List.count_cons]

/-- Witness for spec_c7_install_failure: install exits with code 1 and
stderr network error. -/
theorem spec_c7_install_failure_witness :
    get_node_package_digest [] [] false none ["/a"] (fun _ => true)
        (fun _ => ⟨1, "npm out", "network error", []⟩)
        (fun _ => ⟨0, "", "", []⟩) none noRootMap
      = (.error (.processFailed "installing node project dependencies"
            1 "network error"),
         [Event.logInfo ("Using npm at " ++ ("/a" ++ "/npm") ++ " ($PATH="
            ++ String.intercalate ":" ["/a"] ++ ")"),
          Event.processRun "installing node project dependencies"])
    ∧ (get_node_package_digest [] [] false none ["/a"] (fun _ => true)
        (fun _ => ⟨1, "npm out", "network error", []⟩)
        (fun _ => ⟨0, "", "", []⟩) none noRootMap).snd.count
          (Event.processRun "installing node project dependencies") = 1
    ∧ (get_node_package_digest [] [] false none ["/a"] (fun _ => true)
        (fun _ => ⟨1, "npm out", "network error", []⟩)
        (fun _ => ⟨0, "", "", []⟩) none noRootMap).snd.count
          (Event.processRun "Running npm run-script pants:build") = 0 :=
  spec_c7_install_failure [] [] false none ["/a"] (fun _ => true)
    (fun _ => ⟨1, "npm out", "network error", []⟩)
    (fun _ => ⟨0, "", "", []⟩) none noRootMap
    [] ("/a" ++ "/npm") ["/a"] rfl rfl (by decide)

/-- C8 counterexample: the claim says subprocess stdout is logged both on
success and on failure.  When the install subprocess exits non-zero the
pipeline aborts inside the host Get before the log_console_output call:
the event trace ends at the install process run, so the install stdout is
never logged.  Likewise, when install succeeds and the build subprocess
exits non-zero, the trace ends at the build process run, so the build
stdout is never logged. -/
theorem spec_c8_counterexample :
    ((get_node_package_digest [] [] false none ["/a"] (fun _ => true)
        (fun _ => ⟨1, "install progress text", "network error", []⟩)
        (fun _ => ⟨0, "", "", []⟩) none noRootMap).fst
      = .error (.processFailed "installing node project dependencies"
          1 "network error")
    ∧ (get_node_package_digest [] [] false none ["/a"] (fun _ => true)
        (fun _ => ⟨1, "install progress text", "network error", []⟩)
        (fun _ => ⟨0, "", "", []⟩) none noRootMap).snd.getLast?
      = some (Event.processRun "installing node project dependencies"))
    ∧ (get_node_package_digest [] [] false none ["/a"] (fun _ => true)
        (fun _ => ⟨0, "install progress text", "", []⟩)
        (fun _ => ⟨1, "build progress text", "tsc exited 1", []⟩)
        none noRootMap).fst
      = .error (.processFailed "Running npm run-script pants:build"
          1 "tsc exited 1")
    ∧ (get_node_package_digest [] [] false none ["/a"] (fun _ => true)
        (fun _ => ⟨0, "install progress text", "", []⟩)
        (fun _ => ⟨1, "build progress text", "tsc exited 1", []⟩)
        none noRootMap).snd.getLast?
      = some (Event.processRun "Running npm run-script pants:build") :=
  ⟨⟨rfl, rfl⟩, rfl, rfl⟩

/-- C8 (amended): the plugin logs subprocess stdout through
log_console_output only when the corresponding Get of a ProcessResult
succeeds: on a zero install exit the install stdout is logged, on a zero
build exit the build stdout is logged, but on a non-zero install exit the
pipeline aborts with the trace ending at the install run, and on a
non-zero build exit (after a successful install) it aborts with the trace
ending at the build run — in each failing case before any logging of the
failing step stdout. -/
theorem spec_c8_stdout_logging
    (package_root : List String) (source_files : Digest)
    (use_nvm : Bool) (nvm_bin : Option String) (configured : List String)
    (hasNpm : String → Bool) (run_install run_build : Digest → ProcessResult)
    (output_path : Option (List String))
    (rootMap : List String → Option (List String))
    (sf : Digest) (np : String) (sp : List String)
    (h1 : removePfx source_files package_root = some sf)
    (h2 : get_node_search_paths use_nvm nvm_bin configured hasNpm
      = .ok (np, sp)) :
    ((run_install sf).exitCode = 0 →
      log_console_output (run_install sf).stdout
        ∈ (get_node_package_digest package_root source_files use_nvm nvm_bin
            configured hasNpm run_install run_build output_path rootMap).snd)
    ∧ ((run_install sf).exitCode = 0 →
       (run_build (mergeDigests [sf, (run_install sf).output_digest])).exitCode
          = 0 →
      log_console_output
          (run_build (mergeDigests [sf, (run_install sf).output_digest])).stdout
        ∈ (get_node_package_digest package_root source_files use_nvm nvm_bin
            configured hasNpm run_install run_build output_path rootMap).snd)
    ∧ ((run_install sf).exitCode ≠ 0 →
      (get_node_package_digest package_root source_files use_nvm nvm_bin
          configured hasNpm run_install run_build output_path
          rootMap).snd.getLast?
        = some (Event.processRun "installing node project dependencies"))
    ∧ ((run_install sf).exitCode = 0 →
       (run_build (mergeDigests [sf, (run_install sf).output_digest])).exitCode
          ≠ 0 →
      (get_node_package_digest package_root source_files use_nvm nvm_bin
          configured hasNpm run_install run_build output_path
          rootMap).snd.getLast?
        = some (Event.processRun "Running npm run-script pants:build")) := by
  refine ⟨?_, ?_, ?_, ?_⟩
  · intro hi
    simp only [get_node_package_digest, h1, h2, runProcess, hi, if_true]
    by_cases hb : (run_build (mergeDigests
        [sf, (run_install sf).output_digest])).exitCode = 0 <;>
      simp [hb]
  · intro hi hb
    simp only [get_node_package_digest, h1, h2, runProcess, hi, hb, if_true]
    simp
  · intro hi
    simp only [get_node_package_digest, h1, h2, runProcess, hi, if_false]
    simp [hi]
  · intro hi hb
    simp only [get_node_package_digest, h1, h2, runProcess, hi, if_true]
    simp [hb]

/-- Witness for spec_c8_stdout_logging: with both subprocesses succeeding,
both stdout streams appear as logged events; with a failing install the
trace ends at the install run, and with a failing build it ends at the
build run. -/
theorem spec_c8_stdout_logging_witness :
    (log_console_output "install stdout"
      ∈ (get_node_package_digest [] [] false none ["/a"] (fun _ => true)
          (fun _ => ⟨0, "install stdout", "", []⟩)
          (fun _ => ⟨0, "build stdout", "", []⟩) (some []) noRootMap).snd
    ∧ log_console_output "build stdout"
      ∈ (get_node_package_digest [] [] false none ["/a"] (fun _ => true)
          (fun _ => ⟨0, "install stdout", "", []⟩)
          (fun _ => ⟨0, "build stdout", "", []⟩) (some []) noRootMap).snd)
    ∧ (get_node_package_digest [] [] false none ["/a"] (fun _ => true)
          (fun _ => ⟨1, "install stdout", "boom", []⟩)
          (fun _ => ⟨0, "build stdout", "", []⟩) (some []) noRootMap).snd.getLast?
      = some (Event.processRun "installing node project dependencies")
    ∧ (get_node_package_digest [] [] false none ["/a"] (fun _ => true)
          (fun _ => ⟨0, "install stdout", "", []⟩)
          (fun _ => ⟨1, "build stdout", "boom", []⟩) (some []) noRootMap).snd.getLast?
      = some (Event.processRun "Running npm run-script pants:build") := by
  refine ⟨⟨?_, ?_⟩, ?_, ?_⟩
  · exact (spec_c8_stdout_logging [] [] false none ["/a"] (fun _ => true)
      (fun _ => ⟨0, "install stdout", "", []⟩)
      (fun _ => ⟨0, "build stdout", "", []⟩) (some []) noRootMap
      [] ("/a" ++ "/npm") ["/a"] rfl rfl).1 rfl
  · exact (spec_c8_stdout_logging [] [] false none ["/a"] (fun _ => true)
      (fun _ => ⟨0, "install stdout", "", []⟩)
      (fun _ => ⟨0, "build stdout", "", []⟩) (some []) noRootMap
      [] ("/a" ++ "/npm") ["/a"] rfl rfl).2.1 rfl rfl
  · exact (spec_c8_stdout_logging [] [] false none ["/a"] (fun _ => true)
      (fun _ => ⟨1, "install stdout", "boom", []⟩)
      (fun _ => ⟨0, "build stdout", "", []⟩) (some []) noRootMap
      [] ("/a" ++ "/npm") ["/a"] rfl rfl).2.2.1 (by decide)
  · exact (spec_c8_stdout_logging [] [] false none ["/a"] (fun _ => true)
      (fun _ => ⟨0, "install stdout", "", []⟩)
      (fun _ => ⟨1, "build stdout", "boom", []⟩) (some []) noRootMap
      [] ("/a" ++ "/npm") ["/a"] rfl rfl).2.2.2 rfl (by decide)

/-- C9: the pipeline globally strips the package root from the collected
sources as its first step.  When every collected path starts with the
package root the strip cannot fail; when some collected path lies outside
the package root the pipeline returns the prefix-mismatch error with an
empty event trace, so no npm subprocess is ever invoked. -/
theorem spec_c9_package_root_strip
    (package_root : List String) (source_files : Digest)
    (use_nvm : Bool) (nvm_bin : Option String) (configured : List String)
    (hasNpm : String → Bool) (run_install run_build : Digest → ProcessResult)
    (output_path : Option (List String))
    (rootMap : List String → Option (List String)) :
    ((∀ e ∈ source_files, package_root <+: e.path) →
      (removePfx source_files package_root).isSome = true)
    ∧ ∀ e ∈ source_files, ¬ package_root <+: e.path →
      get_node_package_digest package_root source_files use_nvm nvm_bin
          configured hasNpm run_install run_build output_path rootMap
        = (.error .prefixMismatch, []) := by
  constructor
  · intro h
    rw [removePfx_eq_some h]
    rfl
  · intro e he hne
    simp only [get_node_package_digest, removePfx_eq_none he hne]

/-- Witness for spec_c9_package_root_strip: a source under the package
root p strips successfully; a source outside it aborts the pipeline with
the prefix mismatch and an empty trace. -/
theorem spec_c9_package_root_strip_witness :
    (removePfx [DigestEntry.file ["p", "x.js"] "c"] ["p"]).isSome = true
    ∧ get_node_package_digest ["p"] [DigestEntry.file ["q", "x.js"] "c"]
        false none ["/a"] (fun _ => true)
        (fun _ => ⟨0, "", "", []⟩) (fun _ => ⟨0, "", "", []⟩) none noRootMap
      = (.error .prefixMismatch, []) := by
  constructor
  · exact (spec_c9_package_root_strip ["p"]
      [DigestEntry.file ["p", "x.js"] "c"] false none ["/a"] (fun _ => true)
      (fun _ => ⟨0, "", "", []⟩) (fun _ => ⟨0, "", "", []⟩) none
      noRootMap).1 (by decide)
  · exact (spec_c9_package_root_strip ["p"]
      [DigestEntry.file ["q", "x.js"] "c"] false none ["/a"] (fun _ => true)
      (fun _ => ⟨0, "", "", []⟩) (fun _ => ⟨0, "", "", []⟩) none noRootMap).2
      (DigestEntry.file ["q", "x.js"] "c") (List.mem_singleton.mpr rfl)
      (by decide)

/-- C10: with a root map defined on every entry (each assigned root
starting its entry path) and pairwise distinct root-stripped paths,
strip_source_roots succeeds and its output is a permutation of the input
entries each rewritten by removing exactly its own root — file contents
unchanged, no entry dropped or duplicated, and every stripped input entry
present in the output. -/
theorem spec_c10_strip_preserves_entries (entries : List DigestEntry)
    (rootMap : List String → Option (List String))
    (hroots : ∀ e ∈ entries, ∃ r, rootMap e.path = some r ∧ r <+: e.path)
    (_hdistinct : (entries.map (stripOwnRoot rootMap)).Pairwise
      fun a b => a.path ≠ b.path) :
    ∃ out, strip_source_roots entries rootMap = .ok out
      ∧ out.Perm (entries.map (stripOwnRoot rootMap))
      ∧ ∀ e ∈ entries, stripOwnRoot rootMap e ∈ out := by
  obtain ⟨out, hout, hperm⟩ := strip_source_roots_ok hroots
  exact ⟨out, hout, hperm,
    fun e he => hperm.symm.subset (List.mem_map_of_mem _ he)⟩

/-- Witness for spec_c10_strip_preserves_entries at a two-entry digest
with two roots. -/
theorem spec_c10_strip_preserves_entries_witness :
    ∃ out, strip_source_roots
        [DigestEntry.file ["r1", "x.js"] "a",
         DigestEntry.file ["r2", "y.js"] "b"] twoRootMap = .ok out
      ∧ out.Perm ([DigestEntry.file ["r1", "x.js"] "a",
          DigestEntry.file ["r2", "y.js"] "b"].map (stripOwnRoot twoRootMap))
      ∧ ∀ e ∈ [DigestEntry.file ["r1", "x.js"] "a",
          DigestEntry.file ["r2", "y.js"] "b"],
          stripOwnRoot twoRootMap e ∈ out := by
  refine spec_c10_strip_preserves_entries _ twoRootMap ?_ ?_
  · intro e he
    rcases List.mem_cons.mp he with rfl | he2
    · exact ⟨["r1"], rfl, by decide⟩
    · rcases List.mem_singleton.mp he2 with rfl
      exact ⟨["r2"], rfl, by decide⟩
  · decide

end PantsNode
